import Mathlib

/-!
Verification development for the piral repository's package-metadata
resolution and module-loading subsystem.

The TypeScript sources are shallowly embedded:

* JavaScript objects become association lists `Obj α` together with the
  operations `olookup` (property read), `oset` (property write: an object
  literal inserts keys in evaluation order, a later write to an existing key
  updates it in place) and `ospread` (the `...` spread of one object into
  another).
* Filesystem paths become lists of segments (`Path`); the Node `path`
  functions `join`/`resolve` on a relative argument become list append, and
  `relative base p` (for `base` a prefix of `p`) becomes dropping the prefix.
* Asynchronous functions become pure functions; a promise that can reject
  becomes an `Except`; emitted log messages are collected in result lists.
-/

/-- A JavaScript object with property values of type `α`, as an association
list in property-insertion order.  Objects built by the operations below have
no duplicate keys, matching real JavaScript objects. -/
abbrev Obj (α : Type) : Type := List (String × α)

namespace Obj

/-- Property read `o[k]`: the first binding of `k`. -/
def olookup (o : Obj α) (k : String) : Option α :=
  (List.find? (fun p => p.1 = k) o).map (·.2)

/-- Property read scanning from the right: the last binding of `k`.  Agrees
with `olookup` on objects without duplicate keys. -/
def olookupR : Obj α → String → Option α
  | [], _ => none
  | p :: rest, k =>
    match olookupR rest k with
    | some v => some v
    | none => if p.1 = k then some p.2 else none

/-- Property write `o[k] = v` (also one key of an object literal): updates the
first binding of `k` in place, or appends a new binding. -/
def oset : Obj α → String → α → Obj α
  | [], k, v => [(k, v)]
  | p :: rest, k, v => if p.1 = k then (k, v) :: rest else p :: oset rest k v

/-- Object spread `{...a, ...b}`: writes every binding of `b` into `a` in
order. -/
def ospread (a b : Obj α) : Obj α :=
  b.foldl (fun acc p => oset acc p.1 p.2) a

/-- The keys of an object, in order. -/
def keys (o : Obj α) : List String := o.map (·.1)

@[simp] theorem ospread_nil (a : Obj α) : ospread a [] = a := rfl

theorem ospread_cons (a : Obj α) (p : String × α) (b : Obj α) :
    ospread a (p :: b) = ospread (oset a p.1 p.2) b := rfl

@[simp] theorem olookup_nil (k : String) : olookup ([] : Obj α) k = none := rfl

theorem olookup_cons (p : String × α) (o : Obj α) (k : String) :
    olookup (p :: o) k = if p.1 = k then some p.2 else olookup o k := by
  simp only [olookup, List.find?_cons]
  by_cases h : p.1 = k <;> simp [h]

theorem olookup_oset (o : Obj α) (k : String) (v : α) (k' : String) :
    olookup (oset o k v) k' = if k = k' then some v else olookup o k' := by
  induction o with
  | nil =>
    simp [oset, olookup_cons]
  | cons p rest ih =>
    by_cases h : p.1 = k
    · subst h
      simp only [oset, if_pos rfl, olookup_cons]
      by_cases hk : p.1 = k' <;> simp [hk, olookup_cons]
    · simp only [oset, if_neg h]
      by_cases h' : p.1 = k'
      · have hk : ¬ k = k' := fun e => h (h'.trans e.symm)
        rw [olookup_cons, if_pos h', if_neg hk, olookup_cons, if_pos h']
      · rw [olookup_cons, if_neg h', ih, olookup_cons, if_neg h']

theorem olookup_ospread (a b : Obj α) (k : String) :
    olookup (ospread a b) k = (olookupR b k).or (olookup a k) := by
  induction b generalizing a with
  | nil => simp [olookupR]
  | cons p rest ih =>
    rw [ospread_cons, ih, olookupR]
    cases h : olookupR rest k with
    | some v => simp
    | none =>
      simp only [Option.none_or, olookup_oset]
      by_cases hk : p.1 = k <;> simp [hk]

@[simp] theorem keys_nil : keys ([] : Obj α) = [] := rfl

@[simp] theorem keys_cons (p : String × α) (o : Obj α) :
    keys (p :: o) = p.1 :: keys o := rfl

theorem olookup_mem_keys {o : Obj α} {k : String} {v : α}
    (h : olookup o k = some v) : k ∈ keys o := by
  simp only [olookup, Option.map_eq_some'] at h
  obtain ⟨q, hq, _⟩ := h
  have h1 : q ∈ o := List.mem_of_find?_eq_some hq
  have h2 : q.1 = k := by simpa using List.find?_some hq
  exact h2 ▸ List.mem_map_of_mem (fun x => x.1) h1

theorem olookupR_eq_olookup (b : Obj α) (k : String) (h : (keys b).Nodup) :
    olookupR b k = olookup b k := by
  induction b with
  | nil => rfl
  | cons p rest ih =>
    simp only [keys_cons, List.nodup_cons] at h
    rw [olookupR, olookup_cons, ih h.2]
    by_cases hk : p.1 = k
    · cases hr : olookup rest k with
      | none => simp [hk]
      | some v =>
        exfalso
        exact h.1 (by rw [hk]; exact olookup_mem_keys hr)
    · cases hr : olookup rest k <;> simp [hk]

theorem keys_oset (o : Obj α) (k : String) (v : α) :
    keys (oset o k v) = if k ∈ keys o then keys o else keys o ++ [k] := by
  induction o with
  | nil => simp [oset]
  | cons p rest ih =>
    by_cases h : p.1 = k
    · subst h
      simp [oset]
    · have hne : ¬ k = p.1 := fun e => h e.symm
      by_cases hm : k ∈ keys rest
      · simp [oset, h, ih, hm, hne]
      · simp [oset, h, ih, hm, hne]

theorem nodup_keys_oset (o : Obj α) (k : String) (v : α)
    (h : (keys o).Nodup) : (keys (oset o k v)).Nodup := by
  rw [keys_oset]
  by_cases hm : k ∈ keys o
  · simpa [hm]
  · rw [if_neg hm]
    refine List.Nodup.append h (List.nodup_singleton k) ?_
    intro a ha hb
    rw [List.mem_singleton] at hb
    exact hm (hb ▸ ha)

theorem nodup_keys_foldl_oset {σ : Type} (key : σ → String) (f : σ → α)
    (xs : List σ) (init : Obj α) (h : (keys init).Nodup) :
    (keys (xs.foldl (fun d x => oset d (key x) (f x)) init)).Nodup := by
  induction xs generalizing init with
  | nil => exact h
  | cons x rest ih => exact ih _ (nodup_keys_oset _ _ _ h)

/-- Reading a key out of a `reduce`-style fold of property writes: the value
of the last element writing that key wins, else the initial object decides. -/
theorem olookup_foldl_oset {σ : Type} (key : σ → String) (f : σ → α)
    (xs : List σ) (init : Obj α) (k : String) :
    olookup (xs.foldl (fun d x => oset d (key x) (f x)) init) k
      = ((xs.reverse.find? (fun x => key x = k)).map f).or (olookup init k) := by
  induction xs generalizing init with
  | nil => simp
  | cons x rest ih =>
    simp only [List.foldl_cons, List.reverse_cons, List.find?_append]
    rw [ih]
    cases h : List.find? (fun x => key x = k) rest.reverse with
    | some y => simp
    | none =>
      simp only [Option.none_or, Option.or_assoc]
      rw [olookup_oset]
      by_cases hk : key x = k <;> simp [hk, List.find?_cons]

end Obj

namespace Piral

open Obj

/-! ## Module Loader — src/framework/piral-base/src/loaders/v2/index.ts -/

/-- One `console.error('Failed to load SystemJS module', source, error)` call. -/
structure LogEntry where
  message : String
  source : String
  error : String
deriving DecidableEq

/-- The SystemJS-style runtime module registry consumed by the loader,
as the external capability interface `has`/`import` the spec describes.
`importModule` resolves with the module's exports object or rejects. -/
structure SystemAPI (α : Type) where
  hasModule : String → Bool
  importModule : String → Except String (Obj α)

/-- Embeds `PiletMetadataV2`: the metadata object of a loadable pilet.  `fields` is
the full list of its own fields (values of abstract type `α`); `link` and
`dependencies` carry the values of the fields of those names, which the
loader reads with their concrete types. -/
structure PiletMetadataV2 (α : Type) where
  fields : Obj α
  link : String
  dependencies : Option (Obj String)

/-- The loader configuration; its fields are not consulted by the v2 loader
(the parameter is named `_config` in the source). -/
structure DefaultLoaderConfig where
  unused : Unit := ()

/-- Embeds `loadSystemModule(source)`: `System.import(source)` with a fulfillment
handler pairing the source with the evaluated module, and a rejection handler
that logs the error and substitutes an empty-exports module, so the returned
promise always resolves. -/
def loadSystemModule (sys : SystemAPI α) (source : String) :
    (String × Obj α) × List LogEntry :=
  match sys.importModule source with
  | .ok value => ((source, value), [])
  | .error err => ((source, []), [⟨"Failed to load SystemJS module", source, err⟩])

/-- The outcome of one `loader(meta, config)` call: the resolved pilet
object, the emitted console errors, and the `(name, url)` pairs passed to
`registerModule`. -/
structure LoaderResult (α : Type) where
  pilet : Obj α
  logs : List LogEntry
  registered : List (String × String)
deriving DecidableEq

/-- The v2 `loader(meta, _config)`: registers each declared dependency that
the module registry does not already have, then imports the pilet's entry
URL (as post-processed by the external `setBasePath`, kept abstract here) and
resolves with `{...meta, ...app}`. -/
def loader (sys : SystemAPI α) (setBasePath : PiletMetadataV2 α → String → String)
    (meta : PiletMetadataV2 α) (_config : DefaultLoaderConfig) : LoaderResult α :=
  let link := setBasePath meta meta.link
  let registered :=
    match meta.dependencies with
    | some deps =>
      (keys deps).filterMap (fun depName =>
        if sys.hasModule depName then none
        else
          match olookup deps depName with
          | some depUrl => some (depName, depUrl)
          | none => none)
    | none => []
  let r := loadSystemModule sys link
  { pilet := ospread meta.fields r.1.2, logs := r.2, registered := registered }

end Piral

namespace Piral

open Obj

/-! ## Package metadata resolution — the CLI's package module -/

/-- A filesystem path, as its list of segments.  The Node `path` functions
used by the source are modelled on this representation: `join`/`resolve`
with a relative second argument is list append, `dirname` drops the last
segment, `basename` is the last segment, and `relative base p` (used only
when `base` is a prefix of `p`) drops that prefix. -/
abbrev FsPath := List String

/-- A `pilets.devDependencies` entry: a literal version string, or the
boolean `true` sentinel asking to look the version up in the host's own
dependencies. -/
inductive DepVal where
  | str (s : String)
  | tru
deriving DecidableEq

/-- A `TemplateFileLocation`: `from`/`to` paths and the optional `deep`
flag. -/
structure TemplateFileLocation where
  «from» : FsPath
  «to» : FsPath
  deep : Option Bool := none
deriving DecidableEq

/-- An entry of a `pilets.files` list: either a plain path string or a
`TemplateFileLocation` record. -/
inductive FileEntry where
  | str (p : FsPath)
  | loc (t : TemplateFileLocation)
deriving DecidableEq

/-- The raw `pilets` block of a host manifest; every field may be absent. -/
structure PiletsBlock where
  files : Option (List FileEntry) := none
  externals : Option (List String) := none
  scripts : Option (Obj String) := none
  validators : Option (Obj String) := none
  devDependencies : Option (Obj DepVal) := none
  preScaffold : Option String := none
  postScaffold : Option String := none
  preUpgrade : Option String := none
  postUpgrade : Option String := none

/-- The relevant subset of a host `package.json` manifest. -/
structure PiralManifest where
  name : String := ""
  version : String := ""
  dependencies : Option (Obj String) := none
  devDependencies : Option (Obj String) := none
  pilets : Option PiletsBlock := none

/-- Embeds `PiletsInfo`: the fully defaulted projection of the `pilets` block. -/
structure PiletsInfo where
  files : List FileEntry
  externals : List String
  scripts : Obj String
  validators : Obj String
  devDependencies : Obj DepVal
  preScaffold : String
  postScaffold : String
  preUpgrade : String
  postUpgrade : String

/-- Embeds `getPiletsInfo(piralInfo)`: destructures `piralInfo.pilets || {}` with a
default for every field. -/
def getPiletsInfo (piralInfo : PiralManifest) : PiletsInfo :=
  let b := piralInfo.pilets.getD {}
  { files := b.files.getD []
    externals := b.externals.getD []
    scripts := b.scripts.getD []
    validators := b.validators.getD []
    devDependencies := b.devDependencies.getD []
    preScaffold := b.preScaffold.getD ""
    postScaffold := b.postScaffold.getD ""
    preUpgrade := b.preUpgrade.getD ""
    postUpgrade := b.postUpgrade.getD "" }

/-- JavaScript `x || d` on an optional string: `d` when `x` is absent or
empty (falsy), else the string itself. -/
def truthyOr (x : Option String) (d : String) : String :=
  match x with
  | some s => if s = "" then d else s
  | none => d

/-- Embeds `getDependencyVersion(name, devDependencies, allDependencies)`: returns
the selected version together with whether the fallback warning was logged:
a string entry is used as-is, the `true` sentinel selects
`allDependencies[name]`, and a falsy selection warns and yields `'latest'`. -/
def getDependencyVersion (name : String) (devDependencies : Obj DepVal)
    (allDependencies : Obj String) : String × Bool :=
  let version := olookup devDependencies name
  let selected : Option String :=
    match version with
    | some (.str s) => some s
    | some .tru => olookup allDependencies name
    | none => none
  match selected with
  | some s => if s = "" then ("latest", true) else (s, false)
  | none => ("latest", true)

/-- The `piral` section written into the pilet manifest: the literal fields
`comment`/`name`/`version`/`tooling`/`externals` followed by the spread of
the remaining `PiletsInfo` fields. -/
structure PiralBlock where
  comment : String
  name : String
  version : String
  tooling : String
  externals : List String
  files : List FileEntry
  scripts : Obj String
  validators : Obj String
  devDependencies : Obj DepVal
  preScaffold : String
  postScaffold : String
  preUpgrade : String
  postUpgrade : String

/-- Everything `patchPiletPackage` computes and writes, plus the fallback
warnings logged along the way. -/
structure PatchOutput where
  piral : PiralBlock
  devDependencies : Obj String
  peerDependencies : Obj String
  scripts : Obj String
  warnings : List String
  files : List FileEntry

/-- The well-known shared runtime libraries that always become wildcard peer
dependencies. -/
def sharedPeerNames : List String :=
  ["@dbeining/react-atom", "@libre/atom", "history", "react", "react-dom",
   "react-router", "react-router-dom", "tslib", "path-to-regexp"]

/-- The pilet source language selector (`PiletLanguage`). -/
inductive PiletLanguage where
  | ts
  | js
deriving DecidableEq

/-- Embeds `names.reduce((deps, name) => { deps[name] = f(name); return deps; }, {})`:
the object built by writing `f n` under every name of the list. -/
def objOfNames (f : String → String) (names : List String) : Obj String :=
  names.foldl (fun deps n => oset deps n (f n)) []

/-- Embeds the expression `{...piralDependencies, ...piralDevDependencies}`: the union of the
host's dependencies and devDependencies, the latter taking precedence. -/
def allDependenciesOf (piralInfo : PiralManifest) : Obj String :=
  ospread (ospread [] (piralInfo.dependencies.getD []))
    (piralInfo.devDependencies.getD [])

/-- Embeds the expression `language ? getDevDependencies(language) : {}`. -/
def typeDependenciesOf (getDevDependencies : PiletLanguage → Obj String)
    (language : Option PiletLanguage) : Obj String :=
  match language with
  | some l => getDevDependencies l
  | none => []

/-- Embeds `patchPiletPackage(root, name, version, piralInfo, language?)`, its pure
part: computes the `piral` block, `devDependencies`, `peerDependencies` and
`scripts` that are merged into the pilet manifest, and returns
`info.files`.  The module-level `cliVersion` constant and the external
`getDevDependencies` language registry are passed as parameters. -/
def patchPiletPackage (cliVersion : String)
    (getDevDependencies : PiletLanguage → Obj String) (name version : String)
    (piralInfo : PiralManifest) (language : Option PiletLanguage) :
    PatchOutput :=
  let piralDependencies := piralInfo.dependencies.getD []
  let allDependencies := allDependenciesOf piralInfo
  let typeDependencies := typeDependenciesOf getDevDependencies language
  let info := getPiletsInfo piralInfo
  let externals := info.externals
  let piral : PiralBlock :=
    { comment := "Keep this section to allow running `piral upgrade`."
      name := name
      version := piralInfo.version
      tooling := cliVersion
      externals := externals
      files := info.files
      scripts := info.scripts
      validators := info.validators
      devDependencies := info.devDependencies
      preScaffold := info.preScaffold
      postScaffold := info.postScaffold
      preUpgrade := info.preUpgrade
      postUpgrade := info.postUpgrade }
  let scripts := ospread
    [("debug-pilet", "pilet debug"), ("build-pilet", "pilet build"),
     ("upgrade-pilet", "pilet upgrade")]
    info.scripts
  let peerDependencies :=
    oset
      (ospread (ospread [] (objOfNames (fun _ => "*") externals))
        (sharedPeerNames.map (fun n => (n, "*"))))
      name "*"
  let devDependencies :=
    oset
      (oset
        (ospread
          (ospread
            (ospread []
              (objOfNames
                (fun n => truthyOr (olookup allDependencies n)
                  ((olookup typeDependencies n).getD ""))
                (keys typeDependencies)))
            (objOfNames
              (fun n =>
                (getDependencyVersion n info.devDependencies allDependencies).1)
              (keys info.devDependencies)))
          (objOfNames
            (fun n => truthyOr (olookup piralDependencies n) "latest")
            externals))
        name (if version = "" then piralInfo.version else version))
      "piral-cli" ("^" ++ cliVersion)
  let warnings :=
    (keys info.devDependencies).foldl
      (fun ws n =>
        if (getDependencyVersion n info.devDependencies allDependencies).2 then
          ws ++ [n]
        else ws)
      []
  { piral := piral
    devDependencies := devDependencies
    peerDependencies := peerDependencies
    scripts := scripts
    warnings := warnings
    files := info.files }

/-- The pilet's on-disk `package.json`: the four sections the patch touches
plus all unrelated fields, kept opaque. -/
structure PiletPackageFile where
  piral : Option PiralBlock := none
  devDependencies : Option (Obj String) := none
  peerDependencies : Option (Obj String) := none
  scripts : Option (Obj String) := none
  rest : Obj String := []

/-- Modelled from the spec: `updateExistingJson(dir, file, patch)`
"shallow-merges `patch` into existing JSON, preserving unspecified fields"
(external `io` collaborator).  `patchPiletPackage` passes a patch whose keys
are exactly `piral`, `devDependencies`, `peerDependencies` and `scripts`,
so those four top-level fields are replaced and all others preserved. -/
def updateExistingJson (m : PiletPackageFile) (po : PatchOutput) :
    PiletPackageFile :=
  { m with
    piral := some po.piral
    devDependencies := some po.devDependencies
    peerDependencies := some po.peerDependencies
    scripts := some po.scripts }

/-- One full `patchPiletPackage` run including its persistence side effect on
the pilet manifest. -/
def patchPiletPackageOn (cliVersion : String)
    (getDevDependencies : PiletLanguage → Obj String) (name version : String)
    (piralInfo : PiralManifest) (language : Option PiletLanguage)
    (m : PiletPackageFile) : PiletPackageFile :=
  updateExistingJson m
    (patchPiletPackage cliVersion getDevDependencies name version piralInfo language)

end Piral

namespace Piral

open Obj

/-! ## File Set Resolver -/

/-- Modelled from the spec: the directory structure consulted by the external
`io.checkIsDirectory` and `io.matchFiles` — the set of existing files, each
an absolute path.  The source template area this is matched against is not
altered by the copy operations. -/
structure Sources where
  files : List FsPath

/-- Modelled from the spec: `io.checkIsDirectory(p)` — `p` is a directory
when some existing file lies strictly below it. -/
def checkIsDirectory (src : Sources) (p : FsPath) : Bool :=
  src.files.any (fun f => p.isPrefixOf f && p ≠ f)

/-- Modelled from the spec: `io.matchFiles(dir, pattern)` for the two
patterns the resolver uses — `'**/*'` matches every file strictly below
`dir`, `'*'` only the files directly inside `dir`. -/
def matchFiles (src : Sources) (dir : FsPath) (pattern : String) : List FsPath :=
  if pattern = "**/*" then
    src.files.filter (fun f => dir.isPrefixOf f && dir ≠ f)
  else
    src.files.filter (fun f => dir.isPrefixOf f && f.length = dir.length + 1)

/-- Embeds `getPiralPath(root, name)`: `resolve(root, 'node_modules', name)`. -/
def getPiralPath (root : FsPath) (name : String) : FsPath :=
  root ++ ["node_modules", name]

/-- One resolved source→target transfer pair. -/
structure SourceTarget where
  sourcePath : FsPath
  targetPath : FsPath
deriving DecidableEq

/-- Embeds `getFilesOf(root, name, file)`: a plain string entry is normalized to
`{from: file, to: file, deep: false}`; a directory source expands through
`matchFiles` with pattern `'**/*'` (deep) or `'*'` (shallow), each match
targeting `resolve(targetPath, relative(sourcePath, file))`; a non-directory
source yields the single pair. -/
def getFilesOf (src : Sources) (root : FsPath) (name : String)
    (file : FileEntry) : List SourceTarget :=
  let fl : TemplateFileLocation :=
    match file with
    | .str f => { «from» := f, «to» := f, deep := some false }
    | .loc t => t
  let sourcePath := getPiralPath root name ++ fl.«from»
  let targetPath := root ++ fl.«to»
  let deep := fl.deep.getD false
  if checkIsDirectory src sourcePath then
    (matchFiles src sourcePath (if deep then "**/*" else "*")).map
      (fun f => { sourcePath := f, targetPath := targetPath ++ f.drop sourcePath.length })
  else
    [{ sourcePath := sourcePath, targetPath := targetPath }]

/-- The mutable file contents: each existing path maps to its content. -/
abbrev ContentFS := FsPath → Option String

/-- Modelled from the spec: `io.getHash(p)` — a content fingerprint, with the
empty string as the defined sentinel for a missing file; injective on
contents. -/
def getHash (fs : ContentFS) (p : FsPath) : String :=
  match fs p with
  | some c => "sha:" ++ c
  | none => ""

/-- Embeds `FileInfo`: a target path, its fingerprint, and whether it differs from
the source. -/
structure FileInfo where
  path : FsPath
  hash : String
  changed : Bool
deriving DecidableEq

/-- Embeds `getFileStats(root, name, files)`: for every resolved pair, hash source
and target and record `changed = sourceHash !== targetHash`.  The source
computes the per-entry records concurrently and collects them; the model
collects them in declaration order (the spec leaves the order open). -/
def getFileStats (src : Sources) (fs : ContentFS) (root : FsPath)
    (name : String) (files : List FileEntry) : List FileInfo :=
  (files.map (fun file =>
    (getFilesOf src root name file).map (fun st =>
      { path := st.targetPath
        hash := getHash fs st.targetPath
        changed := getHash fs st.sourcePath ≠ getHash fs st.targetPath }))).flatten

/-- The `ForceOverwrite` policy of the external `io` module. -/
inductive ForceOverwrite where
  | no
  | prompt
  | yes
deriving DecidableEq

/-- Modelled from the spec: `io.copy(source, target, force)` — writes the
source content over the target when forced or when the target does not exist
yet; otherwise the target is preserved. -/
def copy (fs : ContentFS) (source target : FsPath) (force : ForceOverwrite) :
    ContentFS :=
  if force = ForceOverwrite.yes ∨ fs target = none then
    fun p => if p = target then fs source else fs p
  else fs

/-- The per-target overwrite decision of `copyPiralFiles`: force the copy
when a prior stats record for this exact target path says `changed: false`,
otherwise use the caller's global policy. -/
def decideForce (originalFiles : List FileInfo) (targetPath : FsPath)
    (forceOverwrite : ForceOverwrite) : ForceOverwrite :=
  if originalFiles.any (fun m => m.path = targetPath && !m.changed) then
    ForceOverwrite.yes
  else forceOverwrite

/-- Embeds `copyPiralFiles(root, name, files, forceOverwrite, originalFiles)`:
copies every resolved pair in order, each with its decided force policy. -/
def copyPiralFiles (src : Sources) (root : FsPath) (name : String)
    (files : List FileEntry) (forceOverwrite : ForceOverwrite)
    (originalFiles : List FileInfo) (fs : ContentFS) : ContentFS :=
  files.foldl
    (fun fs file =>
      (getFilesOf src root name file).foldl
        (fun fs st =>
          copy fs st.sourcePath st.targetPath
            (decideForce originalFiles st.targetPath forceOverwrite))
        fs)
    fs

/-! ## Host Locator — retrievePiralRoot -/

/-- Node `path.basename`: the last segment. -/
def basename (p : FsPath) : String := p.getLast?.getD ""

/-- Node `path.dirname`: all but the last segment. -/
def dirname (p : FsPath) : FsPath := p.dropLast

/-- Node `path.extname`: the part of the base name from its last dot on,
empty when there is no dot or the only dot starts the name. -/
def extname (p : FsPath) : String :=
  let cs := (basename p).toList
  match ((List.range cs.length).filter (fun i => cs.getD i ' ' = '.')).getLast? with
  | some i => if i = 0 then "" else String.mk (cs.drop i)
  | none => ""

/-- The parsed content of a `package.json` as far as the host locator reads
it: its `app` field. -/
structure AppManifest where
  app : Option String := none

/-- Modelled from the spec: the filesystem consulted by the host locator —
`io.checkExists` plus `require()` of an existing `package.json` returning
its parsed content. -/
structure HostFS where
  checkExists : FsPath → Bool
  readManifest : FsPath → AppManifest

/-- The two failure modes of `retrievePiralRoot`, both surfaced as a logged
failure followed by a thrown `Invalid Piral instance.` error. -/
inductive RootError where
  | missingPackageJson (rootDir : FsPath)
  | missingAppField
deriving DecidableEq

/-- The manifest hint location of a non-`.html` entry: the hint itself when
it already names `package.json`, else `join(rootDir, 'package.json')`. -/
def piralPackageName (rootDir : FsPath) : FsPath :=
  if basename rootDir = "package.json" then rootDir
  else rootDir ++ ["package.json"]

/-- Embeds `retrievePiralRoot(baseDir, entry)`: an `.html` entry is returned as-is;
otherwise the `package.json` at the hint location must exist and carry a
truthy `app` field, and the manifest directory joined with `app` is
returned. -/
def retrievePiralRoot (fs : HostFS) (baseDir entry : FsPath) :
    Except RootError FsPath :=
  let rootDir := baseDir ++ entry
  if extname rootDir ≠ ".html" then
    let packageName := piralPackageName rootDir
    if fs.checkExists packageName = false then
      .error (.missingPackageJson rootDir)
    else
      match (fs.readManifest packageName).app with
      | some app =>
        if app = "" then .error .missingAppField
        else .ok (dirname packageName ++ [app])
      | none => .error .missingAppField
  else
    .ok rootDir

end Piral

namespace Piral

open Obj

/-! ## Lookup lemmas for the reconciled dependency blocks -/

theorem olookup_objOfNames (f : String → String) (names : List String)
    (init : Obj String) (k : String) :
    olookup (names.foldl (fun deps n => oset deps n (f n)) init) k
      = if k ∈ names then some (f k) else olookup init k := by
  induction names generalizing init with
  | nil => simp
  | cons n rest ih =>
    simp only [List.foldl_cons, ih, olookup_oset]
    by_cases hr : k ∈ rest
    · simp [hr]
    · by_cases hn : n = k
      · subst hn
        simp [hr]
      · have hkn : ¬ k = n := fun e => hn e.symm
        simp [hr, hn, hkn]

theorem nodup_keys_objOfNames (f : String → String) (names : List String) :
    (keys (objOfNames f names)).Nodup :=
  nodup_keys_foldl_oset (fun n => n) f names [] (by simp)

theorem olookupR_objOfNames (f : String → String) (names : List String)
    (k : String) :
    olookupR (objOfNames f names) k = if k ∈ names then some (f k) else none := by
  rw [olookupR_eq_olookup _ _ (nodup_keys_objOfNames f names)]
  have := olookup_objOfNames f names [] k
  simpa [objOfNames] using this

theorem olookupR_const_map (names : List String) (c : String) (k : String) :
    olookupR (names.map (fun n => (n, c))) k
      = if k ∈ names then some c else none := by
  induction names with
  | nil => simp [olookupR]
  | cons n rest ih =>
    simp only [List.map_cons, olookupR, ih]
    by_cases hr : k ∈ rest
    · simp [hr]
    · by_cases hn : n = k
      · subst hn
        simp [hr]
      · have hkn : ¬ k = n := fun e => hn e.symm
        simp [hr, hn, hkn]

/-- The value of every key of the reconciled `devDependencies` block, layer
by layer: the forced `piral-cli` entry wins, then the forced pilet entry,
then the externals layer, then the `pilets.devDependencies` layer, then the
language baseline layer. -/
theorem olookup_patch_devDependencies (cliVersion : String)
    (getDevDependencies : PiletLanguage → Obj String) (name version : String)
    (piralInfo : PiralManifest) (language : Option PiletLanguage) (k : String) :
    olookup (patchPiletPackage cliVersion getDevDependencies name version
        piralInfo language).devDependencies k
      = if "piral-cli" = k then some ("^" ++ cliVersion)
        else if name = k then
          some (if version = "" then piralInfo.version else version)
        else
          (if k ∈ (getPiletsInfo piralInfo).externals then
            some (truthyOr (olookup (piralInfo.dependencies.getD []) k) "latest")
          else none).or
          ((if k ∈ keys (getPiletsInfo piralInfo).devDependencies then
            some (getDependencyVersion k (getPiletsInfo piralInfo).devDependencies
              (allDependenciesOf piralInfo)).1
          else none).or
          (if k ∈ keys (typeDependenciesOf getDevDependencies language) then
            some (truthyOr (olookup (allDependenciesOf piralInfo) k)
              ((olookup (typeDependenciesOf getDevDependencies language) k).getD ""))
          else none)) := by
  simp only [patchPiletPackage, olookup_oset, olookup_ospread,
    olookupR_objOfNames, olookup_nil, Option.or_none]

/-- The value of every key of the reconciled `peerDependencies` block. -/
theorem olookup_patch_peerDependencies (cliVersion : String)
    (getDevDependencies : PiletLanguage → Obj String) (name version : String)
    (piralInfo : PiralManifest) (language : Option PiletLanguage) (k : String) :
    olookup (patchPiletPackage cliVersion getDevDependencies name version
        piralInfo language).peerDependencies k
      = if name = k then some "*"
        else
          (if k ∈ sharedPeerNames then some "*" else none).or
          (if k ∈ (getPiletsInfo piralInfo).externals then some "*" else none) := by
  simp only [patchPiletPackage, olookup_oset, olookup_ospread,
    olookupR_objOfNames, olookupR_const_map, olookup_nil, Option.or_none]

theorem foldl_append_eq_filter (p : String → Bool) (names : List String)
    (init : List String) :
    names.foldl (fun ws n => if p n then ws ++ [n] else ws) init
      = init ++ names.filter p := by
  induction names generalizing init with
  | nil => simp
  | cons n rest ih =>
    simp only [List.foldl_cons, List.filter_cons]
    by_cases hp : p n <;> simp [hp, ih]

/-- The warnings logged by one `patchPiletPackage` run are exactly the
declared `pilets.devDependencies` names whose version resolution fell back. -/
theorem patch_warnings_eq (cliVersion : String)
    (getDevDependencies : PiletLanguage → Obj String) (name version : String)
    (piralInfo : PiralManifest) (language : Option PiletLanguage) :
    (patchPiletPackage cliVersion getDevDependencies name version
        piralInfo language).warnings
      = (keys (getPiletsInfo piralInfo).devDependencies).filter
          (fun n => (getDependencyVersion n (getPiletsInfo piralInfo).devDependencies
            (allDependenciesOf piralInfo)).2) := by
  simp only [patchPiletPackage]
  rw [foldl_append_eq_filter]
  simp

end Piral

namespace Piral

open Obj

/-! ## Claims -/

/-- Claim C4: the reconciliation forces the given pilet name→version mapping
and `piral-cli`→`^cliVersion` as the final, non-overridable devDependencies
entries, whatever the language baseline, `pilets.devDependencies` and
externals layers assign to those keys. -/
theorem c4_forced_entries (cliVersion : String)
    (getDevDependencies : PiletLanguage → Obj String) (name version : String)
    (piralInfo : PiralManifest) (language : Option PiletLanguage)
    (hv : version ≠ "") (hn : name ≠ "piral-cli") :
    olookup (patchPiletPackage cliVersion getDevDependencies name version
        piralInfo language).devDependencies name = some version ∧
    olookup (patchPiletPackage cliVersion getDevDependencies name version
        piralInfo language).devDependencies "piral-cli"
      = some ("^" ++ cliVersion) := by
  constructor
  · rw [olookup_patch_devDependencies, if_neg (fun e => hn e.symm), if_pos rfl,
      if_neg hv]
  · rw [olookup_patch_devDependencies, if_pos rfl]

/-- Witness for C4 at a concrete input. -/
theorem c4_forced_entries_witness :
    olookup (patchPiletPackage "1.2.3" (fun _ => [("typescript", "^3")])
        "my-pilet" "0.1.0"
        { version := "9.0.0"
          pilets := some { devDependencies := some [("my-pilet", .str "777")] } }
        (some .ts)).devDependencies "my-pilet" = some "0.1.0" ∧
    olookup (patchPiletPackage "1.2.3" (fun _ => [("typescript", "^3")])
        "my-pilet" "0.1.0"
        { version := "9.0.0"
          pilets := some { devDependencies := some [("my-pilet", .str "777")] } }
        (some .ts)).devDependencies "piral-cli" = some ("^" ++ "1.2.3") :=
  c4_forced_entries "1.2.3" (fun _ => [("typescript", "^3")]) "my-pilet" "0.1.0"
    { version := "9.0.0"
      pilets := some { devDependencies := some [("my-pilet", .str "777")] } }
    (some .ts) (by decide) (by decide)

/-- Claim C5: the reconciled peerDependencies block maps every externals
name, every member of the fixed shared-library list, and the `name`
parameter itself to the wildcard specifier. -/
theorem c5_peer_wildcards (cliVersion : String)
    (getDevDependencies : PiletLanguage → Obj String) (name version : String)
    (piralInfo : PiralManifest) (language : Option PiletLanguage) (k : String)
    (hk : k ∈ (getPiletsInfo piralInfo).externals ∨ k ∈ sharedPeerNames ∨
      k = name) :
    olookup (patchPiletPackage cliVersion getDevDependencies name version
        piralInfo language).peerDependencies k = some "*" := by
  rw [olookup_patch_peerDependencies]
  by_cases h1 : name = k
  · rw [if_pos h1]
  · rw [if_neg h1]
    rcases hk with h | h | h
    · by_cases h2 : k ∈ sharedPeerNames
      · simp [h2]
      · simp [h2, h]
    · simp [h]
    · exact absurd h.symm h1

/-- Witness for C5 at concrete inputs covering all three membership cases. -/
theorem c5_peer_wildcards_witness :
    olookup (patchPiletPackage "1.0.0" (fun _ => []) "host-app" "1.0.0"
        { pilets := some { externals := some ["ext-lib"] } }
        none).peerDependencies "ext-lib" = some "*" ∧
    olookup (patchPiletPackage "1.0.0" (fun _ => []) "host-app" "1.0.0"
        { pilets := some { externals := some ["ext-lib"] } }
        none).peerDependencies "react" = some "*" ∧
    olookup (patchPiletPackage "1.0.0" (fun _ => []) "host-app" "1.0.0"
        { pilets := some { externals := some ["ext-lib"] } }
        none).peerDependencies "host-app" = some "*" :=
  ⟨c5_peer_wildcards "1.0.0" (fun _ => []) "host-app" "1.0.0"
      { pilets := some { externals := some ["ext-lib"] } } none "ext-lib"
      (Or.inl (by decide)),
   c5_peer_wildcards "1.0.0" (fun _ => []) "host-app" "1.0.0"
      { pilets := some { externals := some ["ext-lib"] } } none "react"
      (Or.inr (Or.inl (by decide))),
   c5_peer_wildcards "1.0.0" (fun _ => []) "host-app" "1.0.0"
      { pilets := some { externals := some ["ext-lib"] } } none "host-app"
      (Or.inr (Or.inr rfl))⟩

/-- Claim C9: reconciling twice against the same host manifest with no
intervening input change persists identical devDependencies and
peerDependencies blocks both times. -/
theorem c9_reconciliation_idempotent (cliVersion : String)
    (getDevDependencies : PiletLanguage → Obj String) (name version : String)
    (piralInfo : PiralManifest) (language : Option PiletLanguage)
    (m : PiletPackageFile) :
    (patchPiletPackageOn cliVersion getDevDependencies name version piralInfo
        language (patchPiletPackageOn cliVersion getDevDependencies name
          version piralInfo language m)).devDependencies
      = (patchPiletPackageOn cliVersion getDevDependencies name version
          piralInfo language m).devDependencies ∧
    (patchPiletPackageOn cliVersion getDevDependencies name version piralInfo
        language (patchPiletPackageOn cliVersion getDevDependencies name
          version piralInfo language m)).peerDependencies
      = (patchPiletPackageOn cliVersion getDevDependencies name version
          piralInfo language m).peerDependencies :=
  ⟨rfl, rfl⟩

/-- Claim C10: a plain string entry `f` of the files list behaves exactly
like the location record `{from: f, to: f, deep: false}` at the public
interfaces of `getFileStats` and `copyPiralFiles`. -/
theorem c10_string_entry_equiv (src : Sources) (fs : ContentFS) (root : FsPath)
    (name : String) (f : FsPath) (pre post : List FileEntry)
    (g : ForceOverwrite) (orig : List FileInfo) (fs0 : ContentFS) :
    getFileStats src fs root name (pre ++ FileEntry.str f :: post)
      = getFileStats src fs root name
          (pre ++ FileEntry.loc ⟨f, f, some false⟩ :: post) ∧
    copyPiralFiles src root name (pre ++ FileEntry.str f :: post) g orig fs0
      = copyPiralFiles src root name
          (pre ++ FileEntry.loc ⟨f, f, some false⟩ :: post) g orig fs0 := by
  constructor
  · simp only [getFileStats, List.map_append, List.map_cons]
    rfl
  · simp only [copyPiralFiles, List.foldl_append, List.foldl_cons]
    rfl

end Piral

namespace Piral

open Obj

/-- Claim C1: `loader(meta, config)` never rejects.  When the dynamic import
of the entry URL fails, the error is logged with the source URL and the
result is the metadata merged with an empty-exports module (so it carries
all of `meta`'s own fields); when the import succeeds, the result is the
shallow union of `meta` and the module's exports, exports winning on key
collision.  (In the embedding the loader is a total function into pilet
objects, so rejection is impossible by construction; the two conjuncts pin
down the resolved value.) -/
theorem c1_loader_never_rejects {α : Type} (sys : SystemAPI α)
    (setBasePath : PiletMetadataV2 α → String → String)
    (meta : PiletMetadataV2 α) (config : DefaultLoaderConfig) :
    (∀ err, sys.importModule (setBasePath meta meta.link) = .error err →
      (loader sys setBasePath meta config).pilet = meta.fields ∧
      (loader sys setBasePath meta config).logs
        = [⟨"Failed to load SystemJS module", setBasePath meta meta.link, err⟩]) ∧
    (∀ app, sys.importModule (setBasePath meta meta.link) = .ok app →
      (keys app).Nodup →
      ∀ k, olookup (loader sys setBasePath meta config).pilet k
        = (olookup app k).or (olookup meta.fields k)) := by
  constructor
  · intro err h
    constructor
    · simp [loader, loadSystemModule, h]
    · simp [loader, loadSystemModule, h]
  · intro app h hnd k
    simp only [loader, loadSystemModule, h]
    rw [olookup_ospread, olookupR_eq_olookup _ _ hnd]

end Piral

namespace Piral

open Obj

/-- Metadata double for the C1 witness. -/
def c1Meta : PiletMetadataV2 String :=
  { fields := [("name", "p"), ("link", "http://cdn/p.js")]
    link := "http://cdn/p.js"
    dependencies := some [("dep", "http://cdn/dep.js")] }

/-- A module registry double whose import always rejects. -/
def c1SysErr : SystemAPI String :=
  { hasModule := fun _ => false, importModule := fun _ => .error "network down" }

/-- A module registry double whose import resolves with exports that collide
with a metadata field. -/
def c1SysOk : SystemAPI String :=
  { hasModule := fun _ => false
    importModule := fun _ => .ok [("setup", "fn"), ("name", "q")] }

/-- Witness for C1 at concrete inputs, exercising both the rejecting and the
resolving import. -/
theorem c1_loader_never_rejects_witness :
    (loader c1SysErr (fun _ l => l) c1Meta {}).pilet = c1Meta.fields ∧
    (loader c1SysErr (fun _ l => l) c1Meta {}).logs
      = [⟨"Failed to load SystemJS module", "http://cdn/p.js", "network down"⟩] ∧
    olookup (loader c1SysOk (fun _ l => l) c1Meta {}).pilet "name" = some "q" ∧
    olookup (loader c1SysOk (fun _ l => l) c1Meta {}).pilet "link"
      = some "http://cdn/p.js" := by
  refine ⟨?_, ?_, ?_, ?_⟩
  · exact ((c1_loader_never_rejects c1SysErr (fun _ l => l) c1Meta {}).1
      "network down" rfl).1
  · exact ((c1_loader_never_rejects c1SysErr (fun _ l => l) c1Meta {}).1
      "network down" rfl).2
  · rw [(c1_loader_never_rejects c1SysOk (fun _ l => l) c1Meta {}).2
      [("setup", "fn"), ("name", "q")] rfl (by decide) "name"]
    decide
  · rw [(c1_loader_never_rejects c1SysOk (fun _ l => l) c1Meta {}).2
      [("setup", "fn"), ("name", "q")] rfl (by decide) "link"]
    decide

end Piral

namespace Piral

open Obj

/-- Claim C2: for a name declared in the host's `pilets.devDependencies`
block (and not re-assigned by the later externals/forced layers): a truthy
literal version string is used verbatim; the `true` sentinel resolves
through the union of the host's dependencies and devDependencies; and when
neither resolves the reconciled specifier is `'latest'` with exactly one
warning emitted for that name. -/
theorem c2_devDependencies_resolution (cliVersion : String)
    (getDevDependencies : PiletLanguage → Obj String) (name version : String)
    (piralInfo : PiralManifest) (language : Option PiletLanguage) (n : String)
    (hext : n ∉ (getPiletsInfo piralInfo).externals)
    (hcli : n ≠ "piral-cli") (hname : n ≠ name) :
    (∀ s, olookup (getPiletsInfo piralInfo).devDependencies n
        = some (DepVal.str s) → s ≠ "" →
      olookup (patchPiletPackage cliVersion getDevDependencies name version
          piralInfo language).devDependencies n = some s) ∧
    (∀ v, olookup (getPiletsInfo piralInfo).devDependencies n
        = some DepVal.tru →
      olookup (allDependenciesOf piralInfo) n = some v → v ≠ "" →
      olookup (patchPiletPackage cliVersion getDevDependencies name version
          piralInfo language).devDependencies n = some v) ∧
    (∀ d, olookup (getPiletsInfo piralInfo).devDependencies n = some d →
      (d = DepVal.str "" ∨ (d = DepVal.tru ∧
        truthyOr (olookup (allDependenciesOf piralInfo) n) "" = "")) →
      olookup (patchPiletPackage cliVersion getDevDependencies name version
          piralInfo language).devDependencies n = some "latest" ∧
      ((keys (getPiletsInfo piralInfo).devDependencies).Nodup →
        (patchPiletPackage cliVersion getDevDependencies name version
          piralInfo language).warnings.count n = 1)) := by
  have hl1 : ¬ ("piral-cli" = n) := fun e => hcli e.symm
  have hl2 : ¬ (name = n) := fun e => hname e.symm
  refine ⟨?_, ?_, ?_⟩
  · intro s hd hs
    rw [olookup_patch_devDependencies, if_neg hl1, if_neg hl2, if_neg hext,
      Option.none_or, if_pos (olookup_mem_keys hd), Option.or_some]
    simp [getDependencyVersion, hd, hs]
  · intro v hd hv hvne
    rw [olookup_patch_devDependencies, if_neg hl1, if_neg hl2, if_neg hext,
      Option.none_or, if_pos (olookup_mem_keys hd), Option.or_some]
    simp [getDependencyVersion, hd, hv, hvne]
  · intro d hd hun
    have hgdv : getDependencyVersion n (getPiletsInfo piralInfo).devDependencies
        (allDependenciesOf piralInfo) = ("latest", true) := by
      rcases hun with rfl | ⟨rfl, ht⟩
      · simp [getDependencyVersion, hd]
      · cases hl : olookup (allDependenciesOf piralInfo) n with
        | none => simp [getDependencyVersion, hd, hl]
        | some v =>
          have hv : v = "" := by
            by_cases hv' : v = ""
            · exact hv'
            · rw [hl] at ht
              simp [truthyOr, hv'] at ht
          subst hv
          simp [getDependencyVersion, hd, hl]
    constructor
    · rw [olookup_patch_devDependencies, if_neg hl1, if_neg hl2, if_neg hext,
        Option.none_or, if_pos (olookup_mem_keys hd), Option.or_some, hgdv]
    · intro hnd
      rw [patch_warnings_eq, List.count_filter (by rw [hgdv])]
      exact List.count_eq_one_of_mem hnd (olookup_mem_keys hd)

/-- Host manifest double for the C2 witness: `x` declares a literal version,
`a` declares the `true` sentinel and resolves through the host dependencies,
`c` declares the `true` sentinel and resolves nowhere. -/
def c2Host : PiralManifest :=
  { version := "9.9.9"
    dependencies := some [("a", "1.0.0")]
    devDependencies := some [("b", "3.0.0")]
    pilets := some
      { devDependencies :=
          some [("x", .str "5.0.0"), ("a", .tru), ("c", .tru)] } }

/-- Witness for C2 at concrete inputs covering all three resolution cases. -/
theorem c2_devDependencies_resolution_witness :
    olookup (patchPiletPackage "1.0.0" (fun _ => []) "pilet" "0.1.0" c2Host
      none).devDependencies "x" = some "5.0.0" ∧
    olookup (patchPiletPackage "1.0.0" (fun _ => []) "pilet" "0.1.0" c2Host
      none).devDependencies "a" = some "1.0.0" ∧
    olookup (patchPiletPackage "1.0.0" (fun _ => []) "pilet" "0.1.0" c2Host
      none).devDependencies "c" = some "latest" ∧
    (patchPiletPackage "1.0.0" (fun _ => []) "pilet" "0.1.0" c2Host
      none).warnings.count "c" = 1 := by
  have h3 := (c2_devDependencies_resolution "1.0.0" (fun _ => []) "pilet"
    "0.1.0" c2Host none "c" (by decide) (by decide) (by decide)).2.2 DepVal.tru
    (by decide) (Or.inr ⟨rfl, by decide⟩)
  refine ⟨?_, ?_, h3.1, h3.2 (by decide)⟩
  · exact (c2_devDependencies_resolution "1.0.0" (fun _ => []) "pilet" "0.1.0"
      c2Host none "x" (by decide) (by decide) (by decide)).1 "5.0.0"
      (by decide) (by decide)
  · exact (c2_devDependencies_resolution "1.0.0" (fun _ => []) "pilet" "0.1.0"
      c2Host none "a" (by decide) (by decide) (by decide)).2.1 "1.0.0"
      (by decide) (by decide) (by decide)

end Piral

namespace Piral

open Obj

/-- The end-to-end host manifest of claim C3:
`{pilets: {externals: ['shared-lib']}, dependencies: {'shared-lib': '2.1.0'}}`. -/
def c3Host : PiralManifest :=
  { dependencies := some [("shared-lib", "2.1.0")]
    pilets := some { externals := some ["shared-lib"] } }

/-- Claim C3: every name in the host's `pilets.externals` ends up in the
reconciled devDependencies with the host's own `dependencies` entry (not its
devDependencies), defaulting to `'latest'` when absent; in particular the
end-to-end example reconciles `shared-lib` to `2.1.0` in devDependencies and
`*` in peerDependencies. -/
theorem c3_externals_devDependencies (cliVersion : String)
    (getDevDependencies : PiletLanguage → Obj String) (name version : String)
    (piralInfo : PiralManifest) (language : Option PiletLanguage) (n : String)
    (hn : n ∈ (getPiletsInfo piralInfo).externals)
    (hcli : n ≠ "piral-cli") (hname : n ≠ name) :
    (∀ v, olookup (piralInfo.dependencies.getD []) n = some v → v ≠ "" →
      olookup (patchPiletPackage cliVersion getDevDependencies name version
          piralInfo language).devDependencies n = some v) ∧
    (olookup (piralInfo.dependencies.getD []) n = none →
      olookup (patchPiletPackage cliVersion getDevDependencies name version
          piralInfo language).devDependencies n = some "latest") ∧
    (olookup (patchPiletPackage cliVersion getDevDependencies "my-pilet"
        "1.0.0" c3Host none).devDependencies "shared-lib" = some "2.1.0" ∧
      olookup (patchPiletPackage cliVersion getDevDependencies "my-pilet"
        "1.0.0" c3Host none).peerDependencies "shared-lib" = some "*") := by
  have hl1 : ¬ ("piral-cli" = n) := fun e => hcli e.symm
  have hl2 : ¬ (name = n) := fun e => hname e.symm
  refine ⟨?_, ?_, ?_, ?_⟩
  · intro v hv hvne
    rw [olookup_patch_devDependencies, if_neg hl1, if_neg hl2, if_pos hn,
      Option.or_some]
    simp [truthyOr, hv, hvne]
  · intro hnone
    rw [olookup_patch_devDependencies, if_neg hl1, if_neg hl2, if_pos hn,
      Option.or_some]
    simp [truthyOr, hnone]
  · rw [olookup_patch_devDependencies, if_neg (by decide), if_neg (by decide),
      if_pos (by decide), Option.or_some]
    decide
  · rw [olookup_patch_peerDependencies, if_neg (by decide)]
    simp [sharedPeerNames, c3Host, getPiletsInfo]

end Piral

namespace Piral

open Obj

/-- Witness for C3 at concrete inputs: the declared-version case, the
`'latest'` default case, and the end-to-end example. -/
theorem c3_externals_devDependencies_witness :
    olookup (patchPiletPackage "1.0.0" (fun _ => []) "my-pilet" "1.0.0" c3Host
      none).devDependencies "shared-lib" = some "2.1.0" ∧
    olookup (patchPiletPackage "1.0.0" (fun _ => []) "my-pilet" "1.0.0"
      { pilets := some { externals := some ["missing-lib"] } }
      none).devDependencies "missing-lib" = some "latest" ∧
    olookup (patchPiletPackage "1.0.0" (fun _ => []) "my-pilet" "1.0.0" c3Host
      none).peerDependencies "shared-lib" = some "*" := by
  refine ⟨?_, ?_, ?_⟩
  · exact (c3_externals_devDependencies "1.0.0" (fun _ => []) "my-pilet"
      "1.0.0" c3Host none "shared-lib" (by decide) (by decide) (by decide)).1
      "2.1.0" (by decide) (by decide)
  · exact (c3_externals_devDependencies "1.0.0" (fun _ => []) "my-pilet"
      "1.0.0" { pilets := some { externals := some ["missing-lib"] } } none
      "missing-lib" (by decide) (by decide) (by decide)).2.1 (by decide)
  · exact (c3_externals_devDependencies "1.0.0" (fun _ => []) "my-pilet"
      "1.0.0" c3Host none "shared-lib" (by decide) (by decide)
      (by decide)).2.2.2

end Piral

namespace Piral

open Obj

theorem copy_apply_ne (fs : ContentFS) (s t : FsPath) (f : ForceOverwrite)
    (p : FsPath) (hp : p ≠ t) : copy fs s t f p = fs p := by
  unfold copy
  split
  · simp [hp]
  · rfl

theorem copy_preserve (fs : ContentFS) (s t : FsPath) (f : ForceOverwrite)
    (hf : f ≠ ForceOverwrite.yes) (c : String) (h : fs t = some c) :
    copy fs s t f = fs := by
  have hc : ¬ (f = ForceOverwrite.yes ∨ fs t = none) := by
    rintro (h1 | h2)
    · exact hf h1
    · rw [h] at h2
      exact Option.noConfusion h2
  unfold copy
  rw [if_neg hc]

theorem decideForce_eq_global (orig : List FileInfo) (t : FsPath)
    (g : ForceOverwrite) (h : ∀ m ∈ orig, m.path = t → m.changed = true) :
    decideForce orig t g = g := by
  have hc : ¬ ((orig.any fun m => m.path = t && !m.changed) = true) := by
    intro hany
    rw [List.any_eq_true] at hany
    obtain ⟨m, hm, hp⟩ := hany
    rw [Bool.and_eq_true] at hp
    have h1 : m.path = t := of_decide_eq_true hp.1
    have h2 := h m hm h1
    rw [h2] at hp
    exact absurd hp.2 (by decide)
  unfold decideForce
  rw [if_neg hc]

theorem foldl_copy_preserve (orig : List FileInfo) (t : FsPath)
    (horig : ∀ m ∈ orig, m.path = t → m.changed = true)
    (pairs : List SourceTarget) (fs : ContentFS) (c : String)
    (h : fs t = some c) :
    (pairs.foldl
      (fun fs st =>
        copy fs st.sourcePath st.targetPath
          (decideForce orig st.targetPath ForceOverwrite.no))
      fs) t = some c := by
  induction pairs generalizing fs with
  | nil => exact h
  | cons st rest ih =>
    simp only [List.foldl_cons]
    apply ih
    by_cases ht : st.targetPath = t
    · subst ht
      rw [decideForce_eq_global orig st.targetPath ForceOverwrite.no horig,
        copy_preserve fs st.sourcePath st.targetPath ForceOverwrite.no
          (by decide) c h]
      exact h
    · rw [copy_apply_ne fs st.sourcePath st.targetPath _ t
        (fun e => ht e.symm)]
      exact h

theorem copyPiralFiles_preserve (src : Sources) (root : FsPath) (name : String)
    (files : List FileEntry) (orig : List FileInfo) (fs : ContentFS)
    (t : FsPath) (c : String)
    (horig : ∀ m ∈ orig, m.path = t → m.changed = true) (h : fs t = some c) :
    copyPiralFiles src root name files ForceOverwrite.no orig fs t = some c := by
  unfold copyPiralFiles
  induction files generalizing fs with
  | nil => exact h
  | cons file rest ih =>
    simp only [List.foldl_cons]
    exact ih _ (foldl_copy_preserve orig t horig _ fs c h)

/-- Claim C6: a target recorded `changed: false` in the prior stats pass is
copied with forced overwrite regardless of the global policy; a target
recorded `changed: true` (or not recorded) is copied with the caller's
global policy, so under the preserving policy a target recorded
`changed: true` keeps its content through a whole `copyPiralFiles` run. -/
theorem c6_overwrite_policy :
    (∀ (orig : List FileInfo) (t : FsPath) (g : ForceOverwrite),
      (∃ m ∈ orig, m.path = t ∧ m.changed = false) →
      decideForce orig t g = ForceOverwrite.yes) ∧
    (∀ (orig : List FileInfo) (t : FsPath) (g : ForceOverwrite),
      (∀ m ∈ orig, m.path = t → m.changed = true) →
      decideForce orig t g = g) ∧
    (∀ (src : Sources) (root : FsPath) (name : String)
      (files : List FileEntry) (orig : List FileInfo) (fs : ContentFS)
      (t : FsPath) (c : String),
      (∀ m ∈ orig, m.path = t → m.changed = true) → fs t = some c →
      copyPiralFiles src root name files ForceOverwrite.no orig fs t
        = some c) := by
  refine ⟨?_, fun orig t g h => decideForce_eq_global orig t g h,
    fun src root name files orig fs t c h1 h2 =>
      copyPiralFiles_preserve src root name files orig fs t c h1 h2⟩
  intro orig t g h
  obtain ⟨m, hm, h1, h2⟩ := h
  have hc : (orig.any fun m => m.path = t && !m.changed) = true := by
    rw [List.any_eq_true]
    exact ⟨m, hm, by rw [Bool.and_eq_true, h2]; exact ⟨decide_eq_true h1, rfl⟩⟩
  unfold decideForce
  rw [if_pos hc]

/-- Witness for C6 at concrete inputs: a forced overwrite for an unchanged
record, the global policy for a changed record, and a preserved user-edited
target through a concrete `copyPiralFiles` run. -/
theorem c6_overwrite_policy_witness :
    decideForce [⟨["x"], "h1", true⟩, ⟨["y"], "h2", false⟩] ["y"]
      ForceOverwrite.no = ForceOverwrite.yes ∧
    decideForce [⟨["x"], "h1", true⟩] ["x"] ForceOverwrite.prompt
      = ForceOverwrite.prompt ∧
    copyPiralFiles ⟨[["node_modules", "n", "f"]]⟩ [] "n" [.str ["f"]]
      ForceOverwrite.no [⟨["f"], "h1", true⟩]
      (fun p =>
        if p = ["f"] then some "edited"
        else if p = ["node_modules", "n", "f"] then some "template" else none)
      ["f"] = some "edited" := by
  refine ⟨?_, ?_, ?_⟩
  · exact c6_overwrite_policy.1 [⟨["x"], "h1", true⟩, ⟨["y"], "h2", false⟩]
      ["y"] ForceOverwrite.no ⟨⟨["y"], "h2", false⟩, by decide, by decide, rfl⟩
  · exact c6_overwrite_policy.2.1 [⟨["x"], "h1", true⟩] ["x"]
      ForceOverwrite.prompt (by decide)
  · exact c6_overwrite_policy.2.2 ⟨[["node_modules", "n", "f"]]⟩ [] "n"
      [.str ["f"]] [⟨["f"], "h1", true⟩] _ ["f"] "edited" (by decide) rfl

end Piral

namespace Piral

open Obj

theorem matchFiles_deep (src : Sources) (dir : FsPath) :
    matchFiles src dir "**/*"
      = src.files.filter (fun f => dir.isPrefixOf f && dir ≠ f) := by
  unfold matchFiles
  rw [if_pos rfl]

theorem matchFiles_shallow (src : Sources) (dir : FsPath) :
    matchFiles src dir "*"
      = src.files.filter
          (fun f => dir.isPrefixOf f && f.length = dir.length + 1) := by
  unfold matchFiles
  rw [if_neg (by decide)]

/-- The directory containing `a.txt` and `sub/b.txt` of claim C7, installed
under `node_modules/n/tpl`. -/
def c7src : Sources :=
  ⟨[["node_modules", "n", "tpl", "a.txt"],
    ["node_modules", "n", "tpl", "sub", "b.txt"]]⟩

/-- The template location of claim C7: source directory `tpl`, target
directory `out`. -/
def c7loc (deep : Bool) : TemplateFileLocation :=
  ⟨["tpl"], ["out"], some deep⟩

/-- Claim C7: over a directory source, `deep: true` matches all files
recursively and `deep: false` only the direct children, each targeting the
target directory joined with the file's path relative to the source
directory; a non-directory source yields exactly one pair; and on the
two-file example directory the shallow expansion yields exactly `a.txt`
while the deep expansion yields both files. -/
theorem c7_directory_expansion :
    (∀ (src : Sources) (root : FsPath) (name : String)
      (tl : TemplateFileLocation) (st : SourceTarget),
      checkIsDirectory src (getPiralPath root name ++ tl.«from») = true →
      tl.deep.getD false = true →
      (st ∈ getFilesOf src root name (.loc tl) ↔
        st.sourcePath ∈ src.files ∧
        (getPiralPath root name ++ tl.«from»).isPrefixOf st.sourcePath = true ∧
        getPiralPath root name ++ tl.«from» ≠ st.sourcePath ∧
        st.targetPath = (root ++ tl.«to») ++
          st.sourcePath.drop (getPiralPath root name ++ tl.«from»).length)) ∧
    (∀ (src : Sources) (root : FsPath) (name : String)
      (tl : TemplateFileLocation) (st : SourceTarget),
      checkIsDirectory src (getPiralPath root name ++ tl.«from») = true →
      tl.deep.getD false = false →
      (st ∈ getFilesOf src root name (.loc tl) ↔
        st.sourcePath ∈ src.files ∧
        (getPiralPath root name ++ tl.«from»).isPrefixOf st.sourcePath = true ∧
        st.sourcePath.length = (getPiralPath root name ++ tl.«from»).length + 1 ∧
        st.targetPath = (root ++ tl.«to») ++
          st.sourcePath.drop (getPiralPath root name ++ tl.«from»).length)) ∧
    (∀ (src : Sources) (root : FsPath) (name : String)
      (tl : TemplateFileLocation),
      checkIsDirectory src (getPiralPath root name ++ tl.«from») = false →
      getFilesOf src root name (.loc tl)
        = [⟨getPiralPath root name ++ tl.«from», root ++ tl.«to»⟩]) ∧
    (getFilesOf c7src [] "n" (.loc (c7loc false))
      = [⟨["node_modules", "n", "tpl", "a.txt"], ["out", "a.txt"]⟩]) ∧
    (getFilesOf c7src [] "n" (.loc (c7loc true))
      = [⟨["node_modules", "n", "tpl", "a.txt"], ["out", "a.txt"]⟩,
         ⟨["node_modules", "n", "tpl", "sub", "b.txt"],
          ["out", "sub", "b.txt"]⟩]) := by
  refine ⟨?_, ?_, ?_, by decide, by decide⟩
  · intro src root name tl st hdir hdeep
    simp only [getFilesOf, hdir, if_true, hdeep, matchFiles_deep,
      List.mem_map, List.mem_filter, Bool.and_eq_true, decide_eq_true_eq]
    constructor
    · rintro ⟨f, ⟨hf, hpre, hne⟩, rfl⟩
      exact ⟨hf, hpre, hne, rfl⟩
    · rintro ⟨hf, hpre, hne, htgt⟩
      obtain ⟨sp, tp⟩ := st
      simp only at htgt hf hpre hne ⊢
      exact ⟨sp, ⟨hf, hpre, hne⟩, by rw [← htgt]⟩
  · intro src root name tl st hdir hdeep
    simp only [getFilesOf, hdir, if_true, hdeep, Bool.false_eq_true, if_false,
      matchFiles_shallow, List.mem_map, List.mem_filter, Bool.and_eq_true,
      decide_eq_true_eq]
    constructor
    · rintro ⟨f, ⟨hf, hpre, hlen⟩, rfl⟩
      exact ⟨hf, hpre, hlen, rfl⟩
    · rintro ⟨hf, hpre, hlen, htgt⟩
      obtain ⟨sp, tp⟩ := st
      simp only at htgt hf hpre hlen ⊢
      exact ⟨sp, ⟨hf, hpre, hlen⟩, by rw [← htgt]⟩
  · intro src root name tl hdir
    simp only [getFilesOf, hdir, Bool.false_eq_true, if_false]

/-- Witness for C7 at concrete inputs: a recursive match, a shallow match,
and a non-directory source. -/
theorem c7_directory_expansion_witness :
    (⟨["node_modules", "n", "tpl", "sub", "b.txt"], ["out", "sub", "b.txt"]⟩
      ∈ getFilesOf c7src [] "n" (.loc (c7loc true))) ∧
    (⟨["node_modules", "n", "tpl", "a.txt"], ["out", "a.txt"]⟩
      ∈ getFilesOf c7src [] "n" (.loc (c7loc false))) ∧
    getFilesOf c7src [] "n" (.loc ⟨["tpl", "a.txt"], ["copy.txt"], none⟩)
      = [⟨["node_modules", "n", "tpl", "a.txt"], ["copy.txt"]⟩] := by
  refine ⟨?_, ?_, ?_⟩
  · exact (c7_directory_expansion.1 c7src [] "n" (c7loc true)
      ⟨["node_modules", "n", "tpl", "sub", "b.txt"], ["out", "sub", "b.txt"]⟩
      (by decide) (by decide)).mpr ⟨by decide, by decide, by decide, by decide⟩
  · exact (c7_directory_expansion.2.1 c7src [] "n" (c7loc false)
      ⟨["node_modules", "n", "tpl", "a.txt"], ["out", "a.txt"]⟩
      (by decide) (by decide)).mpr ⟨by decide, by decide, by decide, by decide⟩
  · exact c7_directory_expansion.2.2.1 c7src [] "n"
      ⟨["tpl", "a.txt"], ["copy.txt"], none⟩ (by decide)

end Piral

namespace Piral

open Obj

/-- Claim C8: an entry joining to an `.html` path is returned directly — for
every filesystem, so no manifest is consulted; otherwise the call fails with
the `Invalid Piral instance` error exactly when the `package.json` at the
hint location does not exist or its `app` field is missing or empty, and in
the non-error case returns the manifest directory joined with `app`. -/
theorem c8_retrievePiralRoot_contract (fs : HostFS) (baseDir entry : FsPath) :
    (extname (baseDir ++ entry) = ".html" →
      ∀ fs' : HostFS, retrievePiralRoot fs' baseDir entry
        = .ok (baseDir ++ entry)) ∧
    (extname (baseDir ++ entry) ≠ ".html" →
      ((∃ e, retrievePiralRoot fs baseDir entry = .error e) ↔
        (fs.checkExists (piralPackageName (baseDir ++ entry)) = false ∨
         (fs.readManifest (piralPackageName (baseDir ++ entry))).app = none ∨
         (fs.readManifest (piralPackageName (baseDir ++ entry))).app
           = some "")) ∧
      (∀ app, fs.checkExists (piralPackageName (baseDir ++ entry)) = true →
        (fs.readManifest (piralPackageName (baseDir ++ entry))).app
          = some app →
        app ≠ "" →
        retrievePiralRoot fs baseDir entry
          = .ok (dirname (piralPackageName (baseDir ++ entry)) ++ [app]))) := by
  constructor
  · intro h fs'
    simp only [retrievePiralRoot]
    rw [if_neg (fun hc => hc h)]
  · intro h
    constructor
    · cases hex : fs.checkExists (piralPackageName (baseDir ++ entry)) with
      | false =>
        simp [retrievePiralRoot, if_pos h, hex]
      | true =>
        cases happ : (fs.readManifest (piralPackageName (baseDir ++ entry))).app with
        | none => simp [retrievePiralRoot, if_pos h, hex, happ]
        | some a =>
          by_cases ha : a = "" <;>
            simp [retrievePiralRoot, if_pos h, hex, happ, ha]
    · intro app hex happ hne
      simp [retrievePiralRoot, if_pos h, hex, happ, hne]

/-- A filesystem double for the C8 witness: only `app/package.json` exists
and declares the entry bundle `dist`. -/
def c8fs : HostFS :=
  { checkExists := fun p => p = ["app", "package.json"]
    readManifest := fun p =>
      if p = ["app", "package.json"] then { app := some "dist" } else {} }

/-- Witness for C8 at concrete inputs: an `.html` entry, a successful
manifest resolution, and a failing one. -/
theorem c8_retrievePiralRoot_contract_witness :
    retrievePiralRoot c8fs ["proj"] ["index.html"]
      = .ok ["proj", "index.html"] ∧
    retrievePiralRoot c8fs ["app"] [] = .ok ["app", "dist"] ∧
    (∃ e, retrievePiralRoot c8fs ["missing"] [] = .error e) := by
  refine ⟨?_, ?_, ?_⟩
  · exact (c8_retrievePiralRoot_contract c8fs ["proj"] ["index.html"]).1
      (by decide) c8fs
  · exact (c8_retrievePiralRoot_contract c8fs ["app"] []).2 (by decide) |>.2
      "dist" (by decide) (by decide) (by decide)
  · exact ((c8_retrievePiralRoot_contract c8fs ["missing"] []).2
      (by decide)).1.mpr (Or.inl (by decide))

end Piral
